import Mathlib

/-!
Shallow embedding of the EdgeMesh coordinator core (scheduler, node model and
the job/task repository) together with proofs checking the natural-language
specification against it.

Conventions of the embedding:
* Python floats and timestamps are modelled as `ℚ`; `round(x, 3)` is `round3`.
* Python `Optional` values are `Option`; Python truthiness of optional
  numbers/strings (where `None`, `0` and `""` are all falsy) is made explicit
  through the helpers `orZ`, `orQ`, `orStr` and `strTruthy`.
* Database rows are Lean structures; a repository transaction is a pure
  function `RepoState → …`.  A raised exception inside a transaction rolls the
  transaction back, so fallible operations return `Except RepoError …` and the
  caller keeps the pre-state on `.error`.
-/

namespace EdgeMesh

/-- Rounding to three decimal places, the model of Python's `round(x, 3)`. -/
def round3 (q : ℚ) : ℚ := (round (q * 1000) : ℤ) / 1000

/-- Python `a or b` for an optional integer: `None` and `0` are falsy. -/
def orZ (a : Option ℤ) (b : ℤ) : ℤ :=
  match a with
  | some x => if x = 0 then b else x
  | none => b

/-- Python `a or b` for an optional rational: `None` and `0.0` are falsy. -/
def orQ (a : Option ℚ) (b : ℚ) : ℚ :=
  match a with
  | some x => if x = 0 then b else x
  | none => b

/-- Python `a or b` for an optional string: `None` and `""` are falsy. -/
def orStr (a : Option String) (b : String) : String :=
  match a with
  | some s => if s = "" then b else s
  | none => b

/-- Python truthiness of an optional string (`None` and `""` are falsy). -/
def strTruthy : Option String → Bool
  | some s => s != ""
  | none => false

/-- Modelled from the spec (§3): `models/enums.py` is not part of the sources;
the enum members are taken verbatim from the spec's enum table. -/
inductive TaskType
  | inference
  | embeddings
  | index
  | tokenize
  | preprocess
  deriving DecidableEq

/-- Modelled from the spec (§3): job states. -/
inductive JobStatus
  | queued
  | running
  | completed
  | failed
  | cancelled
  deriving DecidableEq

/-- Modelled from the spec (§3): task states. -/
inductive TaskStatus
  | queued
  | running
  | completed
  | failed
  deriving DecidableEq

/-- Modelled from the spec (§3): node liveness states. -/
inductive NodeStatus
  | unknown
  | online
  | offline
  deriving DecidableEq

/-- Modelled from the spec (§3): role preferences. -/
inductive RolePreference
  | auto
  | prefer_inference
  | prefer_embeddings
  | prefer_preprocess
  deriving DecidableEq

/-- `models/node.py`: `NodeIdentity`. -/
structure NodeIdentity where
  node_id : String
  display_name : String
  ip : String
  port : ℤ
  deriving DecidableEq

/-- `models/node.py`: `NodeCapabilities` (pre- or post-validation values). -/
structure NodeCapabilities where
  task_types : List TaskType := []
  labels : List String := []
  has_gpu : Bool := false
  cpu_cores : Option ℤ := none
  cpu_threads : Option ℤ := none
  ram_total_gb : Option ℚ := none
  ram_gb : Option ℚ := none
  gpu_name : Option String := none
  vram_total_gb : Option ℚ := none
  os : Option String := none
  arch : Option String := none
  deriving DecidableEq

/-- `models/node.py`: the `normalize` model validator, run on every validated
`NodeCapabilities` value.  The two ram steps are sequential, and the gpu step
uses Python truthiness of `gpu_name` (so `""` does not count). -/
def NodeCapabilities.normalize (c : NodeCapabilities) : NodeCapabilities :=
  let c₁ := if c.ram_total_gb = none ∧ c.ram_gb ≠ none then
    { c with ram_total_gb := c.ram_gb } else c
  let c₂ := if c₁.ram_gb = none ∧ c₁.ram_total_gb ≠ none then
    { c₁ with ram_gb := c₁.ram_total_gb } else c₁
  if strTruthy c₂.gpu_name || c₂.vram_total_gb.isSome then
    { c₂ with has_gpu := true } else c₂

/-- The GPU signal of the `normalize` validator: a truthy `gpu_name` or a
present `vram_total_gb`. -/
def gpuSignal (c : NodeCapabilities) : Bool :=
  strTruthy c.gpu_name || c.vram_total_gb.isSome

/-- `models/node.py`: `NodeMetrics`. -/
structure NodeMetrics where
  cpu_percent : ℚ := 0
  ram_used_gb : ℚ := 0
  ram_percent : ℚ := 0
  gpu_percent : Option ℚ := none
  vram_used_gb : Option ℚ := none
  running_jobs : ℕ := 0
  heartbeat_ts : ℚ := 0
  extra : List (String × ℚ) := []
  deriving DecidableEq

/-- `models/node.py`: `NodePolicy`. -/
structure NodePolicy where
  enabled : Bool := true
  cpu_cap_percent : ℤ := 100
  gpu_cap_percent : Option ℤ := none
  ram_cap_percent : ℤ := 100
  task_allowlist : List TaskType :=
    [.inference, .embeddings, .index, .tokenize, .preprocess]
  role_preference : RolePreference := .auto
  deriving DecidableEq

/-- `models/node.py`: `Node`. -/
structure Node where
  identity : NodeIdentity
  capabilities : NodeCapabilities := {}
  metrics : NodeMetrics := {}
  policy : NodePolicy := {}
  status : NodeStatus := .unknown
  last_seen : ℚ := 0
  created_at : ℚ := 0
  updated_at : ℚ := 0
  deriving DecidableEq

/-- `scheduler/core.py`: `EffectiveCapacity`. -/
structure EffectiveCapacity where
  effective_cpu_threads : ℚ
  effective_ram_gb : ℚ
  effective_vram_gb : Option ℚ
  deriving DecidableEq

/-- `scheduler/core.py`: `_task_requires_gpu`. -/
def task_requires_gpu (task_type : TaskType) : Bool :=
  task_type == TaskType.inference

/-- `scheduler/core.py`: `compute_effective_capacity`.  The fallback chains
`cpu_threads or cpu_cores or 0` and `ram_total_gb or ram_gb or 0.0` use
Python truthiness (`orZ`/`orQ`); the vram branch is an `is not None` check. -/
def compute_effective_capacity (node : Node) : EffectiveCapacity :=
  let cpu_threads : ℤ := orZ node.capabilities.cpu_threads (orZ node.capabilities.cpu_cores 0)
  let ram_total : ℚ := orQ node.capabilities.ram_total_gb (orQ node.capabilities.ram_gb 0)
  let vram_total := node.capabilities.vram_total_gb
  let effective_cpu_threads := round3 ((cpu_threads : ℚ) * ((node.policy.cpu_cap_percent : ℚ) / 100))
  let effective_ram_gb := round3 (ram_total * ((node.policy.ram_cap_percent : ℚ) / 100))
  let effective_vram_gb : Option ℚ :=
    match vram_total with
    | some v =>
      let gpu_cap : ℤ := node.policy.gpu_cap_percent.getD 100
      some (round3 (v * ((gpu_cap : ℚ) / 100)))
    | none => none
  { effective_cpu_threads := effective_cpu_threads,
    effective_ram_gb := effective_ram_gb,
    effective_vram_gb := effective_vram_gb }

/-- `scheduler/core.py`: `evaluate_node_eligibility`.  Reasons accumulate in
source order; the pair is `(reasons == [], reasons)`. -/
def evaluate_node_eligibility (node : Node) (task_type : TaskType) : Bool × List String :=
  let reasons : List String :=
    (if node.policy.enabled then [] else ["policy_disabled"]) ++
    (if node.status = .online then [] else ["node_not_online"]) ++
    (if task_type ∈ node.policy.task_allowlist then [] else ["task_not_allowed"]) ++
    (if node.metrics.cpu_percent > (node.policy.cpu_cap_percent : ℚ) then ["cpu_over_cap"] else []) ++
    (if node.metrics.ram_percent > (node.policy.ram_cap_percent : ℚ) then ["ram_over_cap"] else []) ++
    (if task_requires_gpu task_type then
      match node.metrics.gpu_percent with
      | some gp =>
        let gpu_cap : ℤ := node.policy.gpu_cap_percent.getD 100
        if gp > (gpu_cap : ℚ) then ["gpu_over_cap"] else []
      | none => []
    else [])
  (reasons.isEmpty, reasons)

/-- `scheduler/core.py`: `is_node_eligible`. -/
def is_node_eligible (node : Node) (task_type : TaskType) : Bool :=
  (evaluate_node_eligibility node task_type).1

/-- `scheduler/core.py`: `score_node`.  The source names the two clamped load
fractions `cpu_ratio`/`ram_ratio`; they appear here as `cpu_part`/`ram_part`. -/
def score_node (node : Node) (task_type : TaskType) : ℚ :=
  let cpu_cap : ℤ := max node.policy.cpu_cap_percent 1
  let ram_cap : ℤ := max node.policy.ram_cap_percent 1
  let cpu_part : ℚ := min (node.metrics.cpu_percent / (cpu_cap : ℚ)) 2
  let ram_part : ℚ := min (node.metrics.ram_percent / (ram_cap : ℚ)) 2
  let score : ℚ := 100 - (cpu_part * 50 + ram_part * 40)
  let score := if task_type = .inference ∧ node.capabilities.has_gpu = true ∧
      (node.policy.role_preference = .auto ∨ node.policy.role_preference = .prefer_inference)
    then score + 10 else score
  let score := if node.policy.role_preference = .prefer_inference ∧ task_type = .inference
    then score + 15 else score
  let score := if node.policy.role_preference = .prefer_embeddings ∧ task_type = .embeddings
    then score + 15 else score
  let score := if node.policy.role_preference = .prefer_preprocess ∧ task_type = .preprocess
    then score + 15 else score
  let score :=
    match node.metrics.gpu_percent with
    | some gp =>
      if task_type = .inference then
        let gpu_cap : ℤ := max (node.policy.gpu_cap_percent.getD 100) 1
        score - min (gp / (gpu_cap : ℚ)) 2 * 10
      else score
    | none => score
  round3 score

/-- `db/orm.py`: `TaskRecord` (one row of the `tasks` table). -/
structure TaskRow where
  id : String
  job_id : String
  type : TaskType
  payload_json : String
  status : TaskStatus
  assigned_node_id : Option String
  retries : ℕ
  max_retries : ℕ
  lease_expires_at : Option ℚ
  created_at : ℚ
  updated_at : ℚ
  started_at : Option ℚ
  completed_at : Option ℚ
  error : Option String
  deriving DecidableEq

/-- `db/orm.py`: `JobRecord` (one row of the `jobs` table). -/
structure JobRow where
  id : String
  type : TaskType
  status : JobStatus
  payload_ref : Option String
  assigned_node_id : Option String
  attempts : ℕ
  created_at : ℚ
  updated_at : ℚ
  started_at : Option ℚ
  completed_at : Option ℚ
  error : Option String
  deriving DecidableEq

/-- `db/orm.py`: `ResultRecord` (one row of the append-only `results` table). -/
structure ResultRow where
  task_id : String
  node_id : String
  success : Bool
  output_json : Option String
  duration_ms : ℤ
  created_at : ℚ
  deriving DecidableEq

/-- `models/task.py`: `TaskResult`, the payload of `submit_task_result`. -/
structure TaskResultIn where
  task_id : String
  node_id : String
  success : Bool
  output_json : Option String
  duration_ms : ℤ
  deriving DecidableEq

/-- The persistent state behind `CoordinatorRepository`: the four tables.
Primary keys (`node_id`, job `id`, task `id`) are unique in the database;
single-row updates are modelled by mapping over all rows with the key. -/
structure RepoState where
  nodes : List Node
  jobs : List JobRow
  tasks : List TaskRow
  results : List ResultRow
  deriving DecidableEq

/-- Error taxonomy (spec §7) for the raise sites of `db/repository.py`:
`KeyError` surfaces as `NotFound`, the two `ValueError`s of
`submit_task_result` as `AssignmentMismatch`/`NotExecutable`, and the
`ValueError` of `transition_job_status` as `InvalidTransition`. -/
inductive RepoError
  | notFound
  | assignmentMismatch
  | notExecutable
  | invalidTransition
  deriving DecidableEq

deriving instance DecidableEq for Except

/-- `session.get(JobRecord, job_id)`: lookup by primary key. -/
def findJob (s : RepoState) (jid : String) : Option JobRow :=
  s.jobs.find? (fun j => j.id == jid)

/-- `session.get(TaskRecord, task_id)` plus the row's position, which stands
in for the mutable row object identity. -/
def findTaskIdx (s : RepoState) (tid : String) : Option (ℕ × TaskRow) :=
  s.tasks.enum.find? (fun p => p.2.id == tid)

/-- `session.get(NodeRecord, node_id)` followed by `_to_node`. -/
def findNode (s : RepoState) (nid : String) : Option Node :=
  s.nodes.find? (fun n => n.identity.node_id == nid)

/-- `_task_rows_for_job` without the `created_at` ordering: every use in
`_job_stats`/`_refresh_job_state_locked` (counts, sums, min/max, set of
assigned nodes) is order-independent, so the rows are kept in store order. -/
def jobTasks (s : RepoState) (jid : String) : List TaskRow :=
  s.tasks.filter (fun t => t.job_id == jid)

/-- Number of a job's tasks in a given status (`_job_stats`). -/
def countStatus (ts : List TaskRow) (st : TaskStatus) : ℕ :=
  (ts.filter (fun t => t.status == st)).length

/-- `sum(row.retries for row in task_rows)` (`_job_stats`). -/
def totalRetries (ts : List TaskRow) : ℕ :=
  (ts.map (·.retries)).sum

/-- `min(...)` over a possibly-empty list of timestamps. -/
def listMinQ : List ℚ → Option ℚ
  | [] => none
  | x :: xs => some (xs.foldl min x)

/-- `max(...)` over a possibly-empty list of timestamps. -/
def listMaxQ : List ℚ → Option ℚ
  | [] => none
  | x :: xs => some (xs.foldl max x)

/-- `_job_stats`: `sorted({assigned_node_id | not None and not ""})`. -/
def assignedSorted (ts : List TaskRow) : List String :=
  (((ts.filterMap (·.assigned_node_id)).filter (fun n => n != "")).dedup).insertionSort (· ≤ ·)

/-- The status-derivation rule of `_refresh_job_state_locked` for a job with
at least one task, phrased as the spec states it (§4.1): COMPLETED when all
tasks completed; FAILED when some task failed and none is queued or running;
RUNNING when any task has started (is past QUEUED); otherwise QUEUED. -/
def deriveStatusClaim (ts : List TaskRow) : JobStatus :=
  if countStatus ts .completed = ts.length then .completed
  else if 0 < countStatus ts .failed ∧ countStatus ts .queued = 0 ∧ countStatus ts .running = 0 then .failed
  else if ts.any (fun t => t.status != TaskStatus.queued) then .running
  else .queued

/-- The status written by `_refresh_job_state_locked`: the §4.1 derivation
when the job has tasks, the stored status otherwise. -/
def refreshStatus (ts : List TaskRow) (row : JobRow) : JobStatus :=
  if 0 < ts.length then
    if countStatus ts .completed = ts.length then .completed
    else if 0 < countStatus ts .failed ∧ countStatus ts .queued = 0 ∧
        countStatus ts .running = 0 then .failed
    else if 0 < countStatus ts .running ∨ 0 < countStatus ts .completed ∨
        0 < countStatus ts .failed then .running
    else .queued
  else row.status

/-- `_refresh_job_state_locked`: recompute one job row from its task rows
(`ts` below is the filter of `tasks` on this job id). -/
def refreshRow (tasks : List TaskRow) (row : JobRow) (now : ℚ) : JobRow :=
  let ts := tasks.filter (fun t => t.job_id == row.id)
  let failed := countStatus ts .failed
  let status : JobStatus := refreshStatus ts row
  let started_values := ts.filterMap (·.started_at)
  let completed_values := ts.filterMap (·.completed_at)
  let started_at :=
    if row.started_at = none then listMinQ started_values else row.started_at
  let completed_at :=
    if status = .completed ∨ status = .failed then
      match listMaxQ completed_values with
      | some m => some m
      | none => row.completed_at
    else none
  let error :=
    if status = .failed ∧ 0 < failed then some (toString failed ++ " tasks failed")
    else if status = .completed then none
    else row.error
  { row with
    status := status,
    updated_at := now,
    attempts := totalRetries ts,
    assigned_node_id := (assignedSorted ts).head?,
    started_at := started_at,
    completed_at := completed_at,
    error := error }

/-- `_refresh_job_state_locked` on the state: rewrite the (unique) job row
with the given primary key. -/
def refreshJobState (s : RepoState) (jid : String) (now : ℚ) : RepoState :=
  { s with jobs := s.jobs.map (fun j => if j.id == jid then refreshRow s.tasks j now else j) }

/-- `_ALLOWED_JOB_TRANSITIONS` as a relation between distinct states. -/
def allowedJobTransition : JobStatus → JobStatus → Bool
  | .queued, .running => true
  | .running, .completed => true
  | .running, .failed => true
  | _, _ => false

/-- Overwrite the (unique) job row with the given primary key. -/
def setJobRow (s : RepoState) (jid : String) (row : JobRow) : RepoState :=
  { s with jobs := s.jobs.map (fun j => if j.id == jid then row else j) }

/-- `transition_job_status`: the manual job FSM.  The `→FAILED` error uses
the Python truthy chain `error or row.error or "Job failed"` (`orStr`). -/
def transition_job_status (s : RepoState) (jid : String) (new_status : JobStatus)
    (error : Option String) (now : ℚ) : Except RepoError (RepoState × JobRow) :=
  match findJob s jid with
  | none => .error .notFound
  | some row =>
    if row.status = new_status then
      match error with
      | some e =>
        let row' := { row with error := some e, updated_at := now }
        .ok (setJobRow s jid row', row')
      | none => .ok (s, row)
    else if allowedJobTransition row.status new_status = false then
      .error .invalidTransition
    else
      let row' : JobRow :=
        if new_status = .running then
          { row with
            status := new_status, updated_at := now,
            started_at := some (row.started_at.getD now),
            attempts := row.attempts + 1, error := none }
        else if new_status = .completed then
          { row with
            status := new_status, updated_at := now,
            completed_at := some now, error := none }
        else
          { row with
            status := new_status, updated_at := now,
            completed_at := some now,
            error := some (orStr error (orStr row.error "Job failed")) }
      .ok (setJobRow s jid row', row')

/-- A fresh QUEUED task row built by `create_tasks` (the uuid suffix of the
id is supplied by the caller, as `uuid4` is nondeterministic). -/
def newTaskRow (jid : String) (ttype : TaskType) (payload : String)
    (maxRetries : ℕ) (tid : String) (now : ℚ) : TaskRow :=
  { id := tid, job_id := jid, type := ttype, payload_json := payload
    status := .queued, assigned_node_id := none, retries := 0
    max_retries := maxRetries, lease_expires_at := none
    created_at := now, updated_at := now
    started_at := none, completed_at := none, error := none }

/-- `create_tasks`: insert the new QUEUED rows, then refresh the parent job. -/
def create_tasks (s : RepoState) (jid : String) (ttype : TaskType)
    (payloads : List String) (maxRetries : ℕ) (ids : List String) (now : ℚ) :
    Except RepoError (RepoState × List TaskRow) :=
  match findJob s jid with
  | none => .error .notFound
  | some _ =>
    let created := (payloads.zip ids).map (fun p => newTaskRow jid ttype p.1 maxRetries p.2 now)
    let s₁ := { s with tasks := s.tasks ++ created }
    .ok (refreshJobState s₁ jid now, created)

/-- The stale-lease filter of `_recover_stale_tasks_locked`: RUNNING with a
present, past `lease_expires_at`. -/
def staleTask (now : ℚ) (t : TaskRow) : Bool :=
  t.status == TaskStatus.running &&
    (match t.lease_expires_at with
     | some l => decide (l < now)
     | none => false)

/-- The per-row mutation of `_recover_stale_tasks_locked`: bump retries, drop
the lease, stamp `error = "Task lease expired"`, then fail or requeue. -/
def expireTask (now : ℚ) (t : TaskRow) : TaskRow :=
  let t₁ := { t with
              retries := t.retries + 1, lease_expires_at := none,
              updated_at := now, error := some "Task lease expired" }
  if t₁.max_retries < t₁.retries then
    { t₁ with status := .failed, completed_at := some now }
  else
    { t₁ with status := .queued, assigned_node_id := none }

/-- `_recover_stale_tasks_locked` followed by the refresh of every touched
job; returns the mutated rows as `recover_stale_tasks` does. -/
def recover_stale_tasks (s : RepoState) (now : ℚ) : RepoState × List TaskRow :=
  let stale := s.tasks.filter (staleTask now)
  let s₁ := { s with tasks := s.tasks.map (fun t => if staleTask now t then expireTask now t else t) }
  let touched := (stale.map (·.job_id)).dedup
  (touched.foldl (fun st jid => refreshJobState st jid now) s₁,
   stale.map (expireTask now))

/-- The guard `row.assigned_node_id is not None and row.assigned_node_id != node_id`. -/
def assignmentMismatchB (row : TaskRow) (nid : String) : Bool :=
  match row.assigned_node_id with
  | some a => a != nid
  | none => false

/-- The task-row advance of `submit_task_result` after its guards: clear the
lease, stamp `updated_at`, then complete, fail or requeue. -/
def submitRowUpdate (row : TaskRow) (success : Bool) (now : ℚ) : TaskRow :=
  let row₁ := { row with lease_expires_at := none, updated_at := now }
  if success then
    { row₁ with status := .completed, completed_at := some now, error := none }
  else
    let row₂ := { row₁ with retries := row₁.retries + 1 }
    if row₂.max_retries < row₂.retries then
      { row₂ with
        status := .failed, completed_at := some now,
        error := some "Task failed after max retries" }
    else
      { row₂ with
        status := .queued, assigned_node_id := none,
        error := some "Task execution failed; requeued" }

/-- `submit_task_result`: validate, append the result row, advance the task,
then refresh (and re-read) the parent job.  An error leaves the transaction
rolled back, so no state is produced on the `.error` branches. -/
def submit_task_result (s : RepoState) (res : TaskResultIn) (now : ℚ) :
    Except RepoError (RepoState × TaskRow × JobRow) :=
  match findTaskIdx s res.task_id with
  | none => .error .notFound
  | some (i, row) =>
    if assignmentMismatchB row res.node_id then .error .assignmentMismatch
    else if row.status ≠ .running ∧ row.status ≠ .queued then .error .notExecutable
    else
      let result_row : ResultRow :=
        { task_id := res.task_id, node_id := res.node_id, success := res.success,
          output_json := res.output_json, duration_ms := res.duration_ms, created_at := now }
      let row' : TaskRow := submitRowUpdate row res.success now
      let s₁ := { s with
                  tasks := s.tasks.set i row',
                  results := s.results ++ [result_row] }
      let s₂ := refreshJobState s₁ row.job_id now
      match findJob s₂ row.job_id with
      | none => .error .notFound
      | some jrow => .ok (s₂, row', jrow)

/-- Stable insertion step for the `ORDER BY created_at ASC` of the queued-task
query (rows are `(position, row)` pairs; equal keys keep store order). -/
def insertByCreated (x : ℕ × TaskRow) : List (ℕ × TaskRow) → List (ℕ × TaskRow)
  | [] => [x]
  | y :: ys =>
    if x.2.created_at ≤ y.2.created_at then x :: y :: ys
    else y :: insertByCreated x ys

/-- Stable sort of indexed task rows by `created_at` ascending. -/
def sortTasksByCreated : List (ℕ × TaskRow) → List (ℕ × TaskRow)
  | [] => []
  | x :: xs => insertByCreated x (sortTasksByCreated xs)

/-- The QUEUED rows in `created_at` order for which the node is eligible, as
traversed by the selection loop of `pull_task_for_node` (the loop's
`continue` on an ineligible row is this filter). -/
def eligibleQueued (s : RepoState) (node : Node) : List (ℕ × TaskRow) :=
  (sortTasksByCreated (s.tasks.enum.filter (fun p => p.2.status == TaskStatus.queued))).filter
    (fun p => (evaluate_node_eligibility node p.2.type).1)

/-- `weighted_score`: the node score for the task's type plus the age bonus
`max((now - created_at).total_seconds() / 30.0, 0.0)`. -/
def taskWeight (node : Node) (now : ℚ) (t : TaskRow) : ℚ :=
  score_node node t.type + max ((now - t.created_at) / 30) 0

/-- The running-best accumulator of the selection loop: the candidate
replaces the current best only on a strictly greater weight. -/
def pickGo (f : α → ℚ) (best : α) : List α → α
  | [] => best
  | x :: xs => if f best < f x then pickGo f x xs else pickGo f best xs

/-- First-maximum selection: the first element of the list attaining the
maximal weight, `none` on the empty list. -/
def pickFirstMax (f : α → ℚ) : List α → Option α
  | [] => none
  | x :: xs => some (pickGo f x xs)

/-- The direct promotion of the parent job inside `pull_task_for_node`
(before `_refresh_job_state_locked` runs on it). -/
def promoteJob (s : RepoState) (jid nid : String) (now : ℚ) : RepoState :=
  { s with jobs := s.jobs.map (fun j => if j.id == jid then
      { j with
        status := JobStatus.running, assigned_node_id := some nid,
        started_at := some (j.started_at.getD now), updated_at := now }
    else j) }

/-- `pull_task_for_node`: recover stale leases, load the node, pick the
best-weighted eligible QUEUED task, lease it, promote and refresh its job. -/
def pull_task_for_node (s : RepoState) (node_id : String) (lease_seconds : ℚ)
    (now : ℚ) : RepoState × Option TaskRow :=
  let lease_expires_at := now + lease_seconds
  let s₁ := (recover_stale_tasks s now).1
  match findNode s₁ node_id with
  | none => (s₁, none)
  | some node =>
    match pickFirstMax (fun p => taskWeight node now p.2) (eligibleQueued s₁ node) with
    | none => (s₁, none)
    | some (i, row) =>
      let row' := { row with
                    status := TaskStatus.running,
                    assigned_node_id := some node_id,
                    lease_expires_at := some lease_expires_at,
                    started_at := some (row.started_at.getD now),
                    updated_at := now }
      let s₂ := { s₁ with tasks := s₁.tasks.set i row' }
      let s₃ := promoteJob s₂ row.job_id node_id now
      (refreshJobState s₃ row.job_id now, some row')

/-- The four task-mutating repository operations of the spec's status
derivation invariant. -/
inductive TaskMutOp
  | createTasksOp (jid : String) (ttype : TaskType) (payloads : List String)
      (maxRetries : ℕ) (ids : List String)
  | pullOp (node_id : String) (lease_seconds : ℚ)
  | submitOp (res : TaskResultIn)
  | recoverOp
  deriving DecidableEq

/-- Run one task-mutating operation against the store; a raised error rolls
the transaction back, leaving the state unchanged. -/
def applyTaskOp (op : TaskMutOp) (s : RepoState) (now : ℚ) : RepoState :=
  match op with
  | .createTasksOp jid ttype payloads mr ids =>
    match create_tasks s jid ttype payloads mr ids now with
    | .ok p => p.1
    | .error _ => s
  | .pullOp nid lease => (pull_task_for_node s nid lease now).1
  | .submitOp res =>
    match submit_task_result s res now with
    | .ok p => p.1
    | .error _ => s
  | .recoverOp => (recover_stale_tasks s now).1

/-- The derived-state postcondition established by a refresh of a job row
whose (filtered) task list is `ts`: the stored status and error follow the
derivation rule, and `attempts` is the sum of the tasks' retries. -/
def GoodJob (ts : List TaskRow) (j : JobRow) : Prop :=
  (0 < ts.length →
    j.status = deriveStatusClaim ts ∧
      (deriveStatusClaim ts = .failed →
        j.error = some (toString (countStatus ts .failed) ++ " tasks failed"))) ∧
  j.attempts = totalRetries ts

/-- The `ge=1` pydantic bounds of `NodeCapabilities.cpu_cores`/`cpu_threads`:
a validated record never carries `some 0` there. -/
def capsValidB (c : NodeCapabilities) : Bool :=
  (match c.cpu_cores with
   | some k => decide (1 ≤ k)
   | none => true) &&
  (match c.cpu_threads with
   | some k => decide (1 ≤ k)
   | none => true)

/-! ### Concrete fixtures for witness and counterexample theorems -/

/-- An ONLINE worker with default capabilities, metrics and policy: eligible
for every task type. -/
def wNode : Node :=
  { identity := { node_id := "w1", display_name := "Worker 1", ip := "127.0.0.1", port := 9100 },
    status := .online }

/-- The node of scenario S1. -/
def s1node : Node :=
  { identity := { node_id := "n1", display_name := "Node 1", ip := "10.0.0.5", port := 7001 },
    capabilities := { cpu_threads := some 16, ram_total_gb := some 32, vram_total_gb := some 24 },
    policy := { cpu_cap_percent := 50, ram_cap_percent := 80, gpu_cap_percent := some 75 } }

/-- A node whose capabilities carry `ram_total_gb = 0.0` next to `ram_gb = 5`. -/
def c6node : Node :=
  { identity := { node_id := "n2", display_name := "Node 2", ip := "10.0.0.6", port := 7002 },
    capabilities := { ram_total_gb := some 0, ram_gb := some 5 } }

/-- A freshly created QUEUED job row. -/
def fixtureJob : JobRow :=
  { id := "j1", type := .embeddings, status := .queued, payload_ref := none,
    assigned_node_id := none, attempts := 0, created_at := 0, updated_at := 0,
    started_at := none, completed_at := none, error := none }

/-- The same job after a manual QUEUED to RUNNING transition. -/
def fixtureRunningJob : JobRow :=
  { fixtureJob with status := .running, started_at := some 0, attempts := 1 }

/-- A QUEUED task of `fixtureJob` with `max_retries = 1`. -/
def fixtureTask : TaskRow :=
  { id := "t1", job_id := "j1", type := .embeddings, payload_json := "p",
    status := .queued, assigned_node_id := none, retries := 0, max_retries := 1,
    lease_expires_at := none, created_at := 0, updated_at := 0,
    started_at := none, completed_at := none, error := none }

/-- A RUNNING task of `fixtureJob` whose lease expired at time 3. -/
def fixtureStaleTask : TaskRow :=
  { fixtureTask with
    id := "t2", status := .running, assigned_node_id := some "w1",
    lease_expires_at := some 3, started_at := some 1 }

/-- A RUNNING task leased by a different node. -/
def fixtureAssignedTask : TaskRow :=
  { fixtureTask with
    id := "t3", status := .running, assigned_node_id := some "other",
    lease_expires_at := some 100, started_at := some 1 }

/-- A COMPLETED task. -/
def fixtureDoneTask : TaskRow :=
  { fixtureTask with id := "t4", status := .completed, completed_at := some 2 }

/-- `fixtureRunningJob` after a manual transition to FAILED at time 5 whose
supplied reason was the empty string. -/
def fixtureFailedRow : JobRow :=
  { fixtureRunningJob with
    status := .failed, updated_at := 5, completed_at := some 5,
    error := some "Job failed" }

/-- State with one manually started job and no tasks. -/
def stTrans : RepoState :=
  { nodes := [], jobs := [fixtureRunningJob], tasks := [], results := [] }

/-- State with one queued job owning one queued task. -/
def stSubmit : RepoState :=
  { nodes := [], jobs := [fixtureJob], tasks := [fixtureTask], results := [] }

/-- State with an online worker, one queued job and one queued task. -/
def stPull : RepoState :=
  { nodes := [wNode], jobs := [fixtureJob], tasks := [fixtureTask], results := [] }

/-- State with one queued job owning one stale RUNNING task. -/
def stRecover : RepoState :=
  { nodes := [], jobs := [fixtureJob], tasks := [fixtureStaleTask], results := [] }

/-- State with a foreign-leased task and a completed task. -/
def stErr : RepoState :=
  { nodes := [], jobs := [fixtureJob], tasks := [fixtureAssignedTask, fixtureDoneTask], results := [] }

/-- A result for a task id that does not exist. -/
def resNF : TaskResultIn :=
  { task_id := "t9", node_id := "w1", success := true, output_json := none, duration_ms := 1 }

/-- A result for the task leased by another node. -/
def resMM : TaskResultIn :=
  { task_id := "t3", node_id := "w1", success := true, output_json := none, duration_ms := 1 }

/-- A result for the already-completed task. -/
def resNE : TaskResultIn :=
  { task_id := "t4", node_id := "w1", success := false, output_json := none, duration_ms := 1 }

/-- A failed result for the queued fixture task. -/
def resC2 : TaskResultIn :=
  { task_id := "t1", node_id := "w1", success := false, output_json := none, duration_ms := 7 }

attribute [irreducible] score_node round3

/-! ## Theorems -/

/-- A list with a member is not empty. -/
theorem isEmpty_false_of_mem {a : String} {l : List String} (h : a ∈ l) :
    l.isEmpty = false := by
  cases l with
  | nil => cases h
  | cons x xs => rfl

/-- Folding job refreshes over any list of job ids never touches the task
table. -/
theorem foldRefresh_tasks (now : ℚ) : ∀ (L : List String) (st : RepoState),
    (L.foldl (fun t jid => refreshJobState t jid now) st).tasks = st.tasks := by
  intro L
  induction L with
  | nil => intro st; rfl
  | cons a L ih => intro st; rw [List.foldl_cons, ih]; rfl

/-- The task table after `recover_stale_tasks`: every stale row is expired in
place, all other rows are untouched. -/
theorem recover_tasks_eq (s : RepoState) (now : ℚ) :
    (recover_stale_tasks s now).1.tasks =
      s.tasks.map (fun t => if staleTask now t then expireTask now t else t) := by
  simp only [recover_stale_tasks]
  rw [foldRefresh_tasks]

/-- C8: for any node eligible for a task type, replacing
`policy.cpu_cap_percent` by any value strictly below the node's current
`metrics.cpu_percent` makes `evaluate_node_eligibility` return
`eligible = false` with `"cpu_over_cap"` among the reasons. -/
theorem eligibility_cpu_cap_monotonic (node : Node) (task_type : TaskType) (cap : ℤ)
    (helig : (evaluate_node_eligibility node task_type).1 = true)
    (hcap : (cap : ℚ) < node.metrics.cpu_percent) :
    (evaluate_node_eligibility
        { node with policy := { node.policy with cpu_cap_percent := cap } } task_type).1 = false ∧
      "cpu_over_cap" ∈ (evaluate_node_eligibility
        { node with policy := { node.policy with cpu_cap_percent := cap } } task_type).2 := by
  have hmem : "cpu_over_cap" ∈ (evaluate_node_eligibility
      { node with policy := { node.policy with cpu_cap_percent := cap } } task_type).2 := by
    simp [evaluate_node_eligibility, hcap]
  exact ⟨isEmpty_false_of_mem hmem, hmem⟩

/-- C8 witness: the default online worker is eligible for EMBEDDINGS, and
dropping its cpu cap to -1 (below its `cpu_percent = 0`) breaks eligibility
with reason `"cpu_over_cap"`. -/
theorem eligibility_cpu_cap_monotonic_witness :
    (evaluate_node_eligibility wNode .embeddings).1 = true ∧ ((-1 : ℤ) : ℚ) < wNode.metrics.cpu_percent ∧
      ((evaluate_node_eligibility
          { wNode with policy := { wNode.policy with cpu_cap_percent := -1 } } .embeddings).1 = false ∧
        "cpu_over_cap" ∈ (evaluate_node_eligibility
          { wNode with policy := { wNode.policy with cpu_cap_percent := -1 } } .embeddings).2) :=
  ⟨by decide, by decide,
    eligibility_cpu_cap_monotonic wNode .embeddings (-1) (by decide) (by decide)⟩

/-- C7 (counterexample): the capabilities record validated from input
`{has_gpu := true}` (no `gpu_name`, no `vram_total_gb`) has `has_gpu = true`
while both GPU fields are null, refuting the two-sided invariant
`has_gpu ⇔ (gpu_name ≠ null ∨ vram_total_gb ≠ null)`. -/
theorem has_gpu_counterexample :
    ¬ (((NodeCapabilities.normalize { has_gpu := true }).has_gpu = true) ↔
      ((NodeCapabilities.normalize { has_gpu := true }).gpu_name ≠ none ∨
        (NodeCapabilities.normalize { has_gpu := true }).vram_total_gb ≠ none)) := by
  decide

/-- C7 (amended): for every capabilities record accepted by validation,
`has_gpu` is true exactly when the caller supplied `has_gpu = true`, or
`gpu_name` is a non-null non-empty string, or `vram_total_gb` is non-null;
the caller-supplied flag is retained, so the spec's right-to-left direction
holds (with non-empty `gpu_name`) while the left-to-right direction fails. -/
theorem has_gpu_normalize (c : NodeCapabilities) :
    (NodeCapabilities.normalize c).has_gpu = (c.has_gpu || gpuSignal c) := by
  obtain ⟨tt, lb, hg, cc, ct, rt, rg, gn, vt, osf, ar⟩ := c
  simp only [NodeCapabilities.normalize, gpuSignal]
  split_ifs <;> simp_all

/-- C6 (counterexample): on a validated node with `ram_total_gb = 0.0` and
`ram_gb = 5`, the code computes `effective_ram_gb = 5` (Python `or` skips the
falsy `0.0`), while the claim's null-coalescing chain
`(ram_total_gb, else ram_gb, else 0)` yields `0`. -/
theorem effective_capacity_counterexample :
    (compute_effective_capacity c6node).effective_ram_gb = 5 ∧
      round3 ((c6node.capabilities.ram_total_gb.getD (c6node.capabilities.ram_gb.getD 0)) *
        ((c6node.policy.ram_cap_percent : ℚ) / 100)) = 0 ∧
      (compute_effective_capacity c6node).effective_ram_gb ≠
        round3 ((c6node.capabilities.ram_total_gb.getD (c6node.capabilities.ram_gb.getD 0)) *
          ((c6node.policy.ram_cap_percent : ℚ) / 100)) := by
  refine ⟨?h1, ?h2, ?h3⟩
  case h1 =>
    show round3 ((5 : ℚ) * (((100 : ℤ) : ℚ) / 100)) = 5
    norm_num [round3, round_eq]
  case h2 =>
    show round3 ((0 : ℚ) * (((100 : ℤ) : ℚ) / 100)) = 0
    norm_num [round3, round_eq]
  case h3 =>
    show round3 ((5 : ℚ) * (((100 : ℤ) : ℚ) / 100)) ≠
      round3 ((0 : ℚ) * (((100 : ℤ) : ℚ) / 100))
    norm_num [round3, round_eq]

/-- C6 (amended): for every node whose capabilities respect the validated
`ge=1` bounds on `cpu_cores`/`cpu_threads`, `compute_effective_capacity`
returns `cpu_threads = (cpu_threads, else cpu_cores, else 0) × cpu_cap/100`,
`ram_gb = (ram_total_gb if non-null and nonzero, else ram_gb if non-null,
else 0) × ram_cap/100` (the Python `or` chain), and
`vram_gb = vram_total_gb × (gpu_cap, else 100)/100` when `vram_total_gb` is
present, each rounded to 3 decimals; the S1 node yields `(8.0, 25.6, 18.0)`. -/
theorem effective_capacity_caps :
    (∀ node : Node, capsValidB node.capabilities = true →
      compute_effective_capacity node =
        { effective_cpu_threads := round3
            (((node.capabilities.cpu_threads.getD (node.capabilities.cpu_cores.getD 0) : ℤ) : ℚ) *
              ((node.policy.cpu_cap_percent : ℚ) / 100)),
          effective_ram_gb := round3
            ((orQ node.capabilities.ram_total_gb (orQ node.capabilities.ram_gb 0)) *
              ((node.policy.ram_cap_percent : ℚ) / 100)),
          effective_vram_gb := node.capabilities.vram_total_gb.map
            (fun v => round3 (v * (((node.policy.gpu_cap_percent.getD 100 : ℤ) : ℚ) / 100))) }) ∧
    compute_effective_capacity s1node =
      { effective_cpu_threads := 8, effective_ram_gb := 128 / 5, effective_vram_gb := some 18 } := by
  constructor
  · intro node hc
    rw [capsValidB, Bool.and_eq_true] at hc
    obtain ⟨hcc, hct⟩ := hc
    have hcpu : orZ node.capabilities.cpu_threads (orZ node.capabilities.cpu_cores 0) =
        node.capabilities.cpu_threads.getD (node.capabilities.cpu_cores.getD 0) := by
      cases hts : node.capabilities.cpu_threads with
      | some k =>
        rw [hts] at hct
        have hk : (1 : ℤ) ≤ k := of_decide_eq_true hct
        have hk0 : k ≠ 0 := by omega
        simp [orZ, hk0]
      | none =>
        cases hcs : node.capabilities.cpu_cores with
        | some k =>
          rw [hcs] at hcc
          have hk : (1 : ℤ) ≤ k := of_decide_eq_true hcc
          have hk0 : k ≠ 0 := by omega
          simp [orZ, hk0]
        | none => simp [orZ]
    rw [compute_effective_capacity, hcpu]
    cases hv : node.capabilities.vram_total_gb <;> simp [hv]
  · show compute_effective_capacity s1node = _
    rw [compute_effective_capacity]
    simp only [s1node, orZ, orQ, Option.getD, EffectiveCapacity.mk.injEq]
    norm_num [round3, round_eq]

/-- C6 witness: the S1 node satisfies the validated bounds and the amended
capacity formula applies to it. -/
theorem effective_capacity_caps_witness :
    capsValidB s1node.capabilities = true ∧
      compute_effective_capacity s1node =
        { effective_cpu_threads := round3
            (((s1node.capabilities.cpu_threads.getD (s1node.capabilities.cpu_cores.getD 0) : ℤ) : ℚ) *
              ((s1node.policy.cpu_cap_percent : ℚ) / 100)),
          effective_ram_gb := round3
            ((orQ s1node.capabilities.ram_total_gb (orQ s1node.capabilities.ram_gb 0)) *
              ((s1node.policy.ram_cap_percent : ℚ) / 100)),
          effective_vram_gb := s1node.capabilities.vram_total_gb.map
            (fun v => round3 (v * (((s1node.policy.gpu_cap_percent.getD 100 : ℤ) : ℚ) / 100))) } :=
  ⟨by decide, effective_capacity_caps.1 s1node (by decide)⟩

/-- C5 (counterexample): a manual RUNNING to FAILED transition whose supplied
reason is the empty string stores `"Job failed"`, not the provided reason:
Python's `error or row.error or "Job failed"` skips the falsy `""`. -/
theorem job_fsm_counterexample :
    transition_job_status stTrans "j1" JobStatus.failed (some "") 5 =
      .ok (setJobRow stTrans "j1" fixtureFailedRow, fixtureFailedRow) ∧
    fixtureFailedRow.error = some "Job failed" ∧ fixtureFailedRow.error ≠ some "" := by
  decide

/-- C5 (amended): `transition_job_status` permits exactly the edges
QUEUED to RUNNING, RUNNING to COMPLETED and RUNNING to FAILED, treats a
same-state transition as idempotent (updating only `error`/`updated_at`, and
only when an error is supplied), and yields InvalidTransition on every other
distinct pair; QUEUED to RUNNING sets `started_at` if unset, increments
`attempts` and clears `error`; to COMPLETED sets `completed_at` and clears
`error`; to FAILED sets `completed_at` and sets `error` to the provided
reason when it is non-empty, else the existing error when non-empty, else
`"Job failed"`. -/
theorem job_fsm (s : RepoState) (jid : String) (new_status : JobStatus)
    (err : Option String) (now : ℚ) (row : JobRow)
    (hfind : findJob s jid = some row) :
    (row.status = new_status → err = none →
      transition_job_status s jid new_status err now = .ok (s, row)) ∧
    (∀ e, row.status = new_status → err = some e →
      transition_job_status s jid new_status err now =
        .ok (setJobRow s jid { row with error := some e, updated_at := now },
          { row with error := some e, updated_at := now })) ∧
    (row.status ≠ new_status → allowedJobTransition row.status new_status = false →
      transition_job_status s jid new_status err now = .error .invalidTransition) ∧
    (row.status = .queued → new_status = .running →
      transition_job_status s jid new_status err now =
        .ok (setJobRow s jid
            { row with
              status := .running, updated_at := now,
              started_at := some (row.started_at.getD now),
              attempts := row.attempts + 1, error := none },
          { row with
            status := .running, updated_at := now,
            started_at := some (row.started_at.getD now),
            attempts := row.attempts + 1, error := none })) ∧
    (row.status = .running → new_status = .completed →
      transition_job_status s jid new_status err now =
        .ok (setJobRow s jid
            { row with
              status := .completed, updated_at := now,
              completed_at := some now, error := none },
          { row with
            status := .completed, updated_at := now,
            completed_at := some now, error := none })) ∧
    (row.status = .running → new_status = .failed →
      transition_job_status s jid new_status err now =
        .ok (setJobRow s jid
            { row with
              status := .failed, updated_at := now, completed_at := some now,
              error := some (orStr err (orStr row.error "Job failed")) },
          { row with
            status := .failed, updated_at := now, completed_at := some now,
            error := some (orStr err (orStr row.error "Job failed")) })) := by
  refine ⟨?_, ?_, ?_, ?_, ?_, ?_⟩
  · intro hsame hnone
    subst hnone
    simp [transition_job_status, hfind, hsame]
  · intro e hsame he
    subst he
    simp [transition_job_status, hfind, hsame]
  · intro hne hallow
    simp [transition_job_status, hfind, hne, hallow]
  · intro hq hr
    subst hr
    simp [transition_job_status, hfind, hq, allowedJobTransition]
  · intro hr hc
    subst hc
    simp [transition_job_status, hfind, hr, allowedJobTransition]
  · intro hr hf
    subst hf
    simp [transition_job_status, hfind, hr, allowedJobTransition]

/-- C5 witness: the RUNNING to COMPLETED edge on the fixture job. -/
theorem job_fsm_witness :
    findJob stTrans "j1" = some fixtureRunningJob ∧
      fixtureRunningJob.status = .running ∧
      transition_job_status stTrans "j1" JobStatus.completed none 5 =
        .ok (setJobRow stTrans "j1"
            { fixtureRunningJob with
              status := .completed, updated_at := 5,
              completed_at := some 5, error := none },
          { fixtureRunningJob with
            status := .completed, updated_at := 5,
            completed_at := some 5, error := none }) :=
  ⟨by decide, by decide,
    (job_fsm stTrans "j1" JobStatus.completed none 5 fixtureRunningJob (by decide)).2.2.2.2.1
      (by decide) rfl⟩

/-- C10: a RUNNING task whose lease lies in the past is expired in place by
`recover_stale_tasks`: retries are bumped, the error becomes (and stays)
`"Task lease expired"` on both branches, and the task either FAILs with
`completed_at` set (when retries now exceed `max_retries`) or is requeued
with its assignment cleared; the max-retries message is never written on the
lease-expiry path. -/
theorem lease_expiry_error (s : RepoState) (now : ℚ) (i : ℕ) (row : TaskRow) (l : ℚ)
    (hget : s.tasks[i]? = some row) (hrun : row.status = .running)
    (hlease : row.lease_expires_at = some l) (hlt : l < now) :
    ((recover_stale_tasks s now).1.tasks[i]? = some (expireTask now row)) ∧
    (expireTask now row).error = some "Task lease expired" ∧
    (expireTask now row).retries = row.retries + 1 ∧
    (row.max_retries < row.retries + 1 →
      (expireTask now row).status = .failed ∧ (expireTask now row).completed_at = some now) ∧
    (¬ row.max_retries < row.retries + 1 →
      (expireTask now row).status = .queued ∧ (expireTask now row).assigned_node_id = none) ∧
    (expireTask now row).error ≠ some "Task failed after max retries" := by
  have hstale : staleTask now row = true := by
    simp [staleTask, hrun, hlease, hlt]
  have herr : (expireTask now row).error = some "Task lease expired" := by
    rw [expireTask]
    split <;> rfl
  refine ⟨?_, herr, ?_, ?_, ?_, ?_⟩
  · rw [recover_tasks_eq, List.getElem?_map, hget]
    simp [hstale]
  · rw [expireTask]
    split <;> rfl
  · intro h
    constructor <;> simp [expireTask, h]
  · intro h
    constructor <;> simp [expireTask, h]
  · rw [herr]
    simp

/-- C10 witness: the fixture stale task (lease expired at 3, recovered at 5,
retries 0 of max 1) is requeued with the lease-expired error. -/
theorem lease_expiry_error_witness :
    stRecover.tasks[0]? = some fixtureStaleTask ∧
      fixtureStaleTask.status = .running ∧
      fixtureStaleTask.lease_expires_at = some 3 ∧ (3 : ℚ) < 5 ∧
      (((recover_stale_tasks stRecover 5).1.tasks[0]? = some (expireTask 5 fixtureStaleTask)) ∧
        (expireTask 5 fixtureStaleTask).error = some "Task lease expired" ∧
        (expireTask 5 fixtureStaleTask).retries = fixtureStaleTask.retries + 1 ∧
        (fixtureStaleTask.max_retries < fixtureStaleTask.retries + 1 →
          (expireTask 5 fixtureStaleTask).status = .failed ∧
            (expireTask 5 fixtureStaleTask).completed_at = some 5) ∧
        (¬ fixtureStaleTask.max_retries < fixtureStaleTask.retries + 1 →
          (expireTask 5 fixtureStaleTask).status = .queued ∧
            (expireTask 5 fixtureStaleTask).assigned_node_id = none) ∧
        (expireTask 5 fixtureStaleTask).error ≠ some "Task failed after max retries") :=
  ⟨by decide, by decide, by decide, by decide,
    lease_expiry_error stRecover 5 0 fixtureStaleTask 3 (by decide) (by decide) (by decide)
      (by decide)⟩

/-- A refresh never changes a job row's primary key. -/
theorem refreshRow_id (tasks : List TaskRow) (row : JobRow) (now : ℚ) :
    (refreshRow tasks row now).id = row.id := rfl

/-- Looking the refreshed job up again returns the refreshed row. -/
theorem findJob_refreshJobState (s : RepoState) (jid : String) (now : ℚ) :
    findJob (refreshJobState s jid now) jid =
      (findJob s jid).map (fun j => refreshRow s.tasks j now) := by
  unfold findJob refreshJobState
  rw [List.find?_map]
  have hp : ((fun j : JobRow => j.id == jid) ∘
      (fun j => if j.id == jid then refreshRow s.tasks j now else j)) =
      (fun j : JobRow => j.id == jid) := by
    funext j
    by_cases h : j.id = jid
    · simp [h, refreshRow_id]
    · simp [h]
  rw [hp]
  cases hf : s.jobs.find? (fun j => j.id == jid) with
  | none => rfl
  | some j =>
    have hj : j.id = jid := by simpa using List.find?_some hf
    simp [hj]

/-- `findJob` reads only the jobs table. -/
theorem findJob_mk (ns : List Node) (js : List JobRow) (ts : List TaskRow)
    (rs : List ResultRow) (jid : String) :
    findJob ⟨ns, js, ts, rs⟩ jid = js.find? (fun j => j.id == jid) := rfl

/-- C3: `submit_task_result` fails with NotFound on an unknown task id, with
AssignmentMismatch when the task is leased by a different node, and with
NotExecutable when the task is neither RUNNING nor QUEUED; each error rolls
the transaction back, leaving the state unchanged. -/
theorem submit_error_cases (s : RepoState) (res : TaskResultIn) (now : ℚ) :
    (findTaskIdx s res.task_id = none →
      submit_task_result s res now = .error .notFound ∧
        applyTaskOp (.submitOp res) s now = s) ∧
    (∀ i row a, findTaskIdx s res.task_id = some (i, row) →
      row.assigned_node_id = some a → a ≠ res.node_id →
      submit_task_result s res now = .error .assignmentMismatch ∧
        applyTaskOp (.submitOp res) s now = s) ∧
    (∀ i row, findTaskIdx s res.task_id = some (i, row) →
      (row.assigned_node_id = none ∨ row.assigned_node_id = some res.node_id) →
      row.status ≠ .running → row.status ≠ .queued →
      submit_task_result s res now = .error .notExecutable ∧
        applyTaskOp (.submitOp res) s now = s) := by
  refine ⟨?_, ?_, ?_⟩
  · intro h
    have hsub : submit_task_result s res now = .error .notFound := by
      simp [submit_task_result, h]
    exact ⟨hsub, by simp [applyTaskOp, hsub]⟩
  · intro i row a hfind ha hne
    have hmis : assignmentMismatchB row res.node_id = true := by
      simp [assignmentMismatchB, ha, hne]
    have hsub : submit_task_result s res now = .error .assignmentMismatch := by
      simp [submit_task_result, hfind, hmis]
    exact ⟨hsub, by simp [applyTaskOp, hsub]⟩
  · intro i row hfind hassign hr hq
    have hmis : assignmentMismatchB row res.node_id = false := by
      rcases hassign with h | h <;> simp [assignmentMismatchB, h]
    have hsub : submit_task_result s res now = .error .notExecutable := by
      simp [submit_task_result, hfind, hmis, hr, hq]
    exact ⟨hsub, by simp [applyTaskOp, hsub]⟩

/-- C3 witness: the three error cases on concrete stores (absent id, task
leased by "other", completed task), each leaving the store unchanged. -/
theorem submit_error_cases_witness :
    (submit_task_result stTrans resNF 5 = .error .notFound ∧
      applyTaskOp (.submitOp resNF) stTrans 5 = stTrans) ∧
    (submit_task_result stErr resMM 5 = .error .assignmentMismatch ∧
      applyTaskOp (.submitOp resMM) stErr 5 = stErr) ∧
    (submit_task_result stErr resNE 5 = .error .notExecutable ∧
      applyTaskOp (.submitOp resNE) stErr 5 = stErr) :=
  ⟨(submit_error_cases stTrans resNF 5).1 (by decide),
    (submit_error_cases stErr resMM 5).2.1 0 fixtureAssignedTask "other"
      (by decide) (by decide) (by decide),
    (submit_error_cases stErr resNE 5).2.2 1 fixtureDoneTask
      (by decide) (Or.inl (by decide)) (by decide) (by decide)⟩

/-- C2: a failed result on an executable task owned by an existing job bumps
retries by one; when the bumped retries exceed `max_retries` the task FAILs
with `completed_at` set and the max-retries error, otherwise it is requeued
with its assignment cleared and the requeued error; in both branches the
lease is cleared, the task row is updated in place, and a result row is
appended. -/
theorem submit_failure_retry (s : RepoState) (res : TaskResultIn) (now : ℚ)
    (i : ℕ) (row : TaskRow) (j₀ : JobRow)
    (hfind : findTaskIdx s res.task_id = some (i, row))
    (hstat : row.status = .running ∨ row.status = .queued)
    (hassign : row.assigned_node_id = none ∨ row.assigned_node_id = some res.node_id)
    (hj₀ : findJob s row.job_id = some j₀)
    (hfail : res.success = false) :
    ∃ s₂ t j₂,
      submit_task_result s res now = .ok (s₂, t, j₂) ∧
      t.retries = row.retries + 1 ∧
      (row.max_retries < row.retries + 1 →
        t.status = .failed ∧ t.completed_at = some now ∧
          t.error = some "Task failed after max retries") ∧
      (¬ row.max_retries < row.retries + 1 →
        t.status = .queued ∧ t.assigned_node_id = none ∧
          t.error = some "Task execution failed; requeued") ∧
      t.lease_expires_at = none ∧
      s₂.tasks = s.tasks.set i t ∧
      s₂.results = s.results ++
        [{ task_id := res.task_id, node_id := res.node_id, success := false,
           output_json := res.output_json, duration_ms := res.duration_ms,
           created_at := now }] := by
  have hmis : assignmentMismatchB row res.node_id = false := by
    rcases hassign with h | h <;> simp [assignmentMismatchB, h]
  have hexec : ¬ (row.status ≠ .running ∧ row.status ≠ .queued) := by
    rcases hstat with h | h <;> simp [h]
  have hj₀' : s.jobs.find? (fun j => j.id == row.job_id) = some j₀ := hj₀
  by_cases hmax : row.max_retries < row.retries + 1
  · simp only [submit_task_result, submitRowUpdate, hfind, hmis, Bool.false_eq_true, if_false,
      hfail, if_neg hexec, if_pos hmax, findJob_refreshJobState, findJob_mk, hj₀',
      Option.map_some']
    refine ⟨_, _, _, rfl, ?_, ?_, ?_, ?_, ?_, ?_⟩
    · simp
    · intro h
      refine ⟨rfl, rfl, rfl⟩
    · intro h
      exact absurd hmax h
    · rfl
    · simp [refreshJobState]
    · simp [refreshJobState]
  · simp only [submit_task_result, submitRowUpdate, hfind, hmis, Bool.false_eq_true, if_false,
      hfail, if_neg hexec, if_neg hmax, findJob_refreshJobState, findJob_mk, hj₀',
      Option.map_some']
    refine ⟨_, _, _, rfl, ?_, ?_, ?_, ?_, ?_, ?_⟩
    · simp
    · intro h
      exact absurd h hmax
    · intro h
      refine ⟨rfl, rfl, rfl⟩
    · rfl
    · simp [refreshJobState]
    · simp [refreshJobState]

/-- C2 witness: a failed result on the queued fixture task (retries 0 of
max 1) requeues it with the requeued error and appends the result row. -/
theorem submit_failure_retry_witness :
    findTaskIdx stSubmit resC2.task_id = some (0, fixtureTask) ∧
      (fixtureTask.status = .running ∨ fixtureTask.status = .queued) ∧
      (fixtureTask.assigned_node_id = none ∨
        fixtureTask.assigned_node_id = some resC2.node_id) ∧
      findJob stSubmit fixtureTask.job_id = some fixtureJob ∧
      resC2.success = false ∧
      (∃ s₂ t j₂,
        submit_task_result stSubmit resC2 5 = .ok (s₂, t, j₂) ∧
        t.retries = fixtureTask.retries + 1 ∧
        (fixtureTask.max_retries < fixtureTask.retries + 1 →
          t.status = .failed ∧ t.completed_at = some 5 ∧
            t.error = some "Task failed after max retries") ∧
        (¬ fixtureTask.max_retries < fixtureTask.retries + 1 →
          t.status = .queued ∧ t.assigned_node_id = none ∧
            t.error = some "Task execution failed; requeued") ∧
        t.lease_expires_at = none ∧
        s₂.tasks = stSubmit.tasks.set 0 t ∧
        s₂.results = stSubmit.results ++
          [{ task_id := resC2.task_id, node_id := resC2.node_id, success := false,
             output_json := resC2.output_json, duration_ms := resC2.duration_ms,
             created_at := 5 }]) :=
  ⟨by decide, Or.inr (by decide), Or.inl (by decide), by decide, by decide,
    submit_failure_retry stSubmit resC2 5 0 fixtureTask fixtureJob (by decide)
      (Or.inr (by decide)) (Or.inl (by decide)) (by decide) (by decide)⟩

/-- The running-best accumulator keeps the current best unless a candidate is
strictly better: the result is either the seed (then nothing beats it) or the
first list element attaining the maximum (strictly above everything before
it, at least as good as everything after it). -/
theorem pickGo_spec (f : α → ℚ) : ∀ (l : List α) (b : α),
    (pickGo f b l = b ∧ ∀ y ∈ l, f y ≤ f b) ∨
    (∃ pre post, l = pre ++ pickGo f b l :: post ∧ f b < f (pickGo f b l) ∧
      (∀ y ∈ pre, f y < f (pickGo f b l)) ∧ (∀ y ∈ post, f y ≤ f (pickGo f b l))) := by
  intro l
  induction l with
  | nil =>
    intro b
    left
    exact ⟨rfl, by simp⟩
  | cons x xs ih =>
    intro b
    by_cases h : f b < f x
    · have hred : pickGo f b (x :: xs) = pickGo f x xs := by
        simp [pickGo, h]
      rcases ih x with ⟨heq, hall⟩ | ⟨pre, post, hsplit, hlt, hpre, hpost⟩
      · right
        refine ⟨[], xs, ?_, ?_, by simp, ?_⟩
        · rw [hred, heq]
          rfl
        · rw [hred, heq]
          exact h
        · intro y hy
          rw [hred, heq]
          exact hall y hy
      · right
        refine ⟨x :: pre, post, ?_, ?_, ?_, ?_⟩
        · rw [hred]
          simpa using hsplit
        · rw [hred]
          exact lt_trans h hlt
        · intro y hy
          rw [hred]
          rcases List.mem_cons.mp hy with rfl | hy'
          · exact hlt
          · exact hpre y hy'
        · intro y hy
          rw [hred]
          exact hpost y hy
    · have hred : pickGo f b (x :: xs) = pickGo f b xs := by
        simp [pickGo, h]
      push_neg at h
      rcases ih b with ⟨heq, hall⟩ | ⟨pre, post, hsplit, hlt, hpre, hpost⟩
      · left
        constructor
        · rw [hred, heq]
        · intro y hy
          rcases List.mem_cons.mp hy with rfl | hy'
          · exact h
          · exact hall y hy'
      · right
        refine ⟨x :: pre, post, ?_, ?_, ?_, ?_⟩
        · rw [hred]
          simpa using hsplit
        · rw [hred]
          exact hlt
        · intro y hy
          rw [hred]
          rcases List.mem_cons.mp hy with rfl | hy'
          · exact lt_of_le_of_lt h hlt
          · exact hpre y hy'
        · intro y hy
          rw [hred]
          exact hpost y hy

/-- First-maximum selection: the selected element splits the list so that
everything before it weighs strictly less and everything after it weighs at
most as much (ties go to the first encountered). -/
theorem pickFirstMax_spec (f : α → ℚ) (l : List α) (x : α)
    (hx : pickFirstMax f l = some x) :
    ∃ pre post, l = pre ++ x :: post ∧ (∀ y ∈ pre, f y < f x) ∧
      (∀ y ∈ post, f y ≤ f x) := by
  cases l with
  | nil => cases hx
  | cons a as =>
    have hx' : pickGo f a as = x := by
      simpa [pickFirstMax] using hx
    rcases pickGo_spec f as a with ⟨heq, hall⟩ | ⟨pre, post, hsplit, hlt, hpre, hpost⟩
    · have hxa : x = a := by rw [← hx', heq]
      subst hxa
      exact ⟨[], as, by simp, by simp, hall⟩
    · rw [hx'] at hsplit hlt hpre hpost
      refine ⟨a :: pre, post, by simp [hsplit], ?_, hpost⟩
      intro y hy
      rcases List.mem_cons.mp hy with rfl | hy'
      · exact hlt
      · exact hpre y hy'

/-- Stable insertion preserves the members. -/
theorem mem_insertByCreated (x y : ℕ × TaskRow) (l : List (ℕ × TaskRow)) :
    y ∈ insertByCreated x l ↔ y ∈ x :: l := by
  induction l with
  | nil => rw [insertByCreated]
  | cons z zs ih =>
    rw [insertByCreated]
    split
    · rfl
    · rw [List.mem_cons, ih]
      simp [List.mem_cons]
      tauto

/-- The stable sort of the queued-task query preserves the members. -/
theorem mem_sortTasksByCreated (y : ℕ × TaskRow) : ∀ (l : List (ℕ × TaskRow)),
    y ∈ sortTasksByCreated l ↔ y ∈ l := by
  intro l
  induction l with
  | nil => rw [sortTasksByCreated]
  | cons x xs ih =>
    rw [sortTasksByCreated, mem_insertByCreated, List.mem_cons, ih, List.mem_cons]

/-- Every entry of `eligibleQueued` is a QUEUED row of the task table at its
recorded position, and the node is eligible for its type. -/
theorem eligibleQueued_facts (s : RepoState) (node : Node) (i : ℕ) (row : TaskRow)
    (h : (i, row) ∈ eligibleQueued s node) :
    s.tasks[i]? = some row ∧ row.status = .queued ∧
      (evaluate_node_eligibility node row.type).1 = true := by
  rw [eligibleQueued, List.mem_filter] at h
  obtain ⟨hmem, helig⟩ := h
  rw [mem_sortTasksByCreated, List.mem_filter] at hmem
  obtain ⟨henum, hst⟩ := hmem
  refine ⟨?_, ?_, helig⟩
  · exact List.mem_enum_iff_getElem?.mp henum
  · simpa using hst

/-- C4: after the inline lease recovery, `pull_task_for_node` returns no task
and mutates no task when the node is unknown or no eligible QUEUED task
exists; otherwise it selects the eligible QUEUED task (taken in `created_at`
ascending order) maximizing `score_node + age bonus`, with ties won by the
first encountered, and returns it RUNNING, assigned to the node, with
`lease_expires_at = now + lease_seconds` and `started_at` set if previously
unset; only that task row is written. -/
theorem pull_task_selection (s : RepoState) (node_id : String) (lease_seconds now : ℚ) :
    (findNode (recover_stale_tasks s now).1 node_id = none →
      pull_task_for_node s node_id lease_seconds now = ((recover_stale_tasks s now).1, none)) ∧
    (∀ node, findNode (recover_stale_tasks s now).1 node_id = some node →
      (pickFirstMax (fun p => taskWeight node now p.2)
          (eligibleQueued (recover_stale_tasks s now).1 node) = none →
        pull_task_for_node s node_id lease_seconds now = ((recover_stale_tasks s now).1, none)) ∧
      (∀ i row, pickFirstMax (fun p => taskWeight node now p.2)
          (eligibleQueued (recover_stale_tasks s now).1 node) = some (i, row) →
        (∃ pre post,
          eligibleQueued (recover_stale_tasks s now).1 node = pre ++ (i, row) :: post ∧
          (∀ q ∈ pre, taskWeight node now q.2 < taskWeight node now row) ∧
          (∀ q ∈ post, taskWeight node now q.2 ≤ taskWeight node now row)) ∧
        (recover_stale_tasks s now).1.tasks[i]? = some row ∧
        row.status = .queued ∧
        (evaluate_node_eligibility node row.type).1 = true ∧
        (pull_task_for_node s node_id lease_seconds now).2 =
          some { row with
                 status := .running, assigned_node_id := some node_id,
                 lease_expires_at := some (now + lease_seconds),
                 started_at := some (row.started_at.getD now), updated_at := now } ∧
        (pull_task_for_node s node_id lease_seconds now).1.tasks =
          (recover_stale_tasks s now).1.tasks.set i
            { row with
              status := .running, assigned_node_id := some node_id,
              lease_expires_at := some (now + lease_seconds),
              started_at := some (row.started_at.getD now), updated_at := now })) := by
  refine ⟨?_, ?_⟩
  · intro h
    simp only [pull_task_for_node, h]
  · intro node hnode
    refine ⟨?_, ?_⟩
    · intro hpick
      simp only [pull_task_for_node, hnode, hpick]
    · intro i row hpick
      obtain ⟨pre, post, hsplit, hpre, hpost⟩ :=
        pickFirstMax_spec (fun p => taskWeight node now p.2)
          (eligibleQueued (recover_stale_tasks s now).1 node) (i, row) hpick
      have hmem : (i, row) ∈ eligibleQueued (recover_stale_tasks s now).1 node := by
        rw [hsplit]
        exact List.mem_append_right _ (List.mem_cons_self _ _)
      obtain ⟨hget, hqueued, helig⟩ := eligibleQueued_facts _ _ _ _ hmem
      refine ⟨⟨pre, post, hsplit, hpre, hpost⟩, hget, hqueued, helig, ?_, ?_⟩
      · simp only [pull_task_for_node, hnode, hpick]
      · simp only [pull_task_for_node, hnode, hpick, refreshJobState, promoteJob]

/-- C4 witness: pulling for the online worker against the single queued
fixture task leases exactly that task. -/
theorem pull_task_selection_witness :
    findNode (recover_stale_tasks stPull 5).1 "w1" = some wNode ∧
    pickFirstMax (fun p => taskWeight wNode 5 p.2)
        (eligibleQueued (recover_stale_tasks stPull 5).1 wNode) = some (0, fixtureTask) ∧
    ((∃ pre post,
        eligibleQueued (recover_stale_tasks stPull 5).1 wNode = pre ++ (0, fixtureTask) :: post ∧
        (∀ q ∈ pre, taskWeight wNode 5 q.2 < taskWeight wNode 5 fixtureTask) ∧
        (∀ q ∈ post, taskWeight wNode 5 q.2 ≤ taskWeight wNode 5 fixtureTask)) ∧
      (recover_stale_tasks stPull 5).1.tasks[0]? = some fixtureTask ∧
      fixtureTask.status = .queued ∧
      (evaluate_node_eligibility wNode fixtureTask.type).1 = true ∧
      (pull_task_for_node stPull "w1" 30 5).2 =
        some { fixtureTask with
               status := .running, assigned_node_id := some "w1",
               lease_expires_at := some (5 + 30),
               started_at := some (fixtureTask.started_at.getD 5), updated_at := 5 } ∧
      (pull_task_for_node stPull "w1" 30 5).1.tasks =
        (recover_stale_tasks stPull 5).1.tasks.set 0
          { fixtureTask with
            status := .running, assigned_node_id := some "w1",
            lease_expires_at := some (5 + 30),
            started_at := some (fixtureTask.started_at.getD 5), updated_at := 5 }) :=
  ⟨by decide, by decide,
    ((pull_task_selection stPull "w1" 30 5).2 wNode (by decide)).2 0 fixtureTask (by decide)⟩

/-- Expiring a stale lease never changes the task's owning job. -/
theorem expireTask_job_id (now : ℚ) (t : TaskRow) :
    (expireTask now t).job_id = t.job_id := by
  simp only [expireTask]
  split <;> rfl

/-- Some task is past QUEUED exactly when one of the running, completed or
failed counters is positive. -/
theorem any_not_queued (ts : List TaskRow) :
    (ts.any (fun t => t.status != TaskStatus.queued) = true) ↔
      (0 < countStatus ts .running ∨ 0 < countStatus ts .completed ∨
        0 < countStatus ts .failed) := by
  rw [List.any_eq_true]
  constructor
  · rintro ⟨t, ht, hne⟩
    have hne' : t.status ≠ .queued := by simpa using hne
    have hcount : ∀ st : TaskStatus, t.status = st → 0 < countStatus ts st := by
      intro st hst
      have hmem : t ∈ ts.filter (fun t => t.status == st) :=
        List.mem_filter.mpr ⟨ht, by simp [hst]⟩
      exact List.length_pos.mpr (List.ne_nil_of_mem hmem)
    cases h : t.status with
    | queued => exact absurd h hne'
    | running => exact Or.inl (hcount _ h)
    | completed => exact Or.inr (Or.inl (hcount _ h))
    | failed => exact Or.inr (Or.inr (hcount _ h))
  · have pick : ∀ st : TaskStatus, st ≠ .queued → 0 < countStatus ts st →
        ∃ t ∈ ts, (t.status != TaskStatus.queued) = true := by
      intro st hst hpos
      obtain ⟨t, ht⟩ := List.exists_mem_of_length_pos hpos
      obtain ⟨htl, hts⟩ := List.mem_filter.mp ht
      have : t.status = st := by simpa using hts
      exact ⟨t, htl, by simp [this, hst]⟩
    rintro (h | h | h)
    · exact pick _ (by decide) h
    · exact pick _ (by decide) h
    · exact pick _ (by decide) h

/-- The refresh's status derivation agrees with the claim's phrasing
("RUNNING when any task has started", i.e. is past QUEUED). -/
theorem refreshStatus_eq_claim (ts : List TaskRow) (row : JobRow)
    (h : 0 < ts.length) : refreshStatus ts row = deriveStatusClaim ts := by
  rw [refreshStatus, deriveStatusClaim, if_pos h]
  refine if_congr Iff.rfl rfl (if_congr Iff.rfl rfl (if_congr ?_ rfl rfl))
  exact (any_not_queued ts).symm

/-- A claim-derived FAILED status implies a positive failed counter. -/
theorem deriveStatusClaim_failed {ts : List TaskRow}
    (h : deriveStatusClaim ts = .failed) : 0 < countStatus ts .failed := by
  rw [deriveStatusClaim] at h
  split_ifs at h with h1 h2 h3
  all_goals first
  | exact h2.1
  | exact absurd h (by decide)

/-- A refreshed job row satisfies the derived-state postcondition with
respect to the task list it was refreshed against. -/
theorem goodJob_refreshRow (tasks : List TaskRow) (row : JobRow) (now : ℚ) :
    GoodJob (tasks.filter (fun t => t.job_id == row.id)) (refreshRow tasks row now) := by
  rw [GoodJob]
  refine ⟨?_, rfl⟩
  intro hpos
  have hs : (refreshRow tasks row now).status =
      deriveStatusClaim (tasks.filter (fun t => t.job_id == row.id)) := by
    show refreshStatus (tasks.filter (fun t => t.job_id == row.id)) row = _
    exact refreshStatus_eq_claim _ _ hpos
  refine ⟨hs, ?_⟩
  intro hf
  have h0 : 0 < countStatus (tasks.filter (fun t => t.job_id == row.id)) .failed :=
    deriveStatusClaim_failed hf
  show (if refreshStatus (tasks.filter (fun t => t.job_id == row.id)) row = .failed ∧
      0 < countStatus (tasks.filter (fun t => t.job_id == row.id)) .failed then
      some (toString (countStatus (tasks.filter (fun t => t.job_id == row.id)) .failed) ++
        " tasks failed")
    else if refreshStatus (tasks.filter (fun t => t.job_id == row.id)) row = .completed then
      none
    else row.error) = _
  rw [if_pos ⟨by rw [refreshStatus_eq_claim _ _ hpos, hf], h0⟩]

/-- Setting a row whose job id matches the old row's and differs from `jid`
leaves the `jid` filter unchanged. -/
theorem filter_set_other : ∀ (l : List TaskRow) (i : ℕ) (a old : TaskRow),
    l[i]? = some old → old.job_id = a.job_id → ∀ jid, a.job_id ≠ jid →
    (l.set i a).filter (fun t => t.job_id == jid) =
      l.filter (fun t => t.job_id == jid) := by
  intro l
  induction l with
  | nil =>
    intro i a old hold
    simp at hold
  | cons x xs ih =>
    intro i a old hold heq jid hne
    cases i with
    | zero =>
      have hx : x = old := by simpa using hold
      have hxj : (x.job_id == jid) = false := by
        rw [hx]
        simp [heq, hne]
      have haj : (a.job_id == jid) = false := by simp [hne]
      simp only [List.set]
      rw [List.filter_cons, List.filter_cons, hxj, haj]
      simp
    | succ n =>
      have hold' : xs[n]? = some old := by simpa using hold
      simp only [List.set]
      rw [List.filter_cons, List.filter_cons, ih n a old hold' heq jid hne]

/-- Folding refreshes over a list of job ids: every row whose id was
refreshed satisfies the derived-state postcondition against the (unchanged)
task table, and every row descends from a pre-fold row with the same id,
untouched when its id was not refreshed. -/
theorem foldRefresh_goodJob (now : ℚ) : ∀ (L : List String) (st : RepoState) (j : JobRow),
    j ∈ (L.foldl (fun t jid => refreshJobState t jid now) st).jobs →
    ((j.id ∈ L → GoodJob (st.tasks.filter (fun t => t.job_id == j.id)) j) ∧
      ∃ j₀, j₀ ∈ st.jobs ∧ j₀.id = j.id ∧ (j.id ∈ L ∨ j = j₀)) := by
  intro L
  induction L with
  | nil =>
    intro st j hj
    exact ⟨fun h => absurd h (List.not_mem_nil _), j, hj, rfl, Or.inr rfl⟩
  | cons a L ih =>
    intro st j hj
    rw [List.foldl_cons] at hj
    obtain ⟨hgood, j₁, hj₁, hid₁, hcase⟩ := ih (refreshJobState st a now) j hj
    have hj₁' : j₁ ∈ st.jobs.map
        (fun j => if j.id == a then refreshRow st.tasks j now else j) := hj₁
    obtain ⟨j₀, hj₀, hf⟩ := List.mem_map.mp hj₁'
    constructor
    · intro hmem
      by_cases hL : j.id ∈ L
      · exact hgood hL
      · have hja : j.id = a := by
          rcases List.mem_cons.mp hmem with h | h
          · exact h
          · exact absurd h hL
        have hjj₁ : j = j₁ := by
          rcases hcase with h | h
          · exact absurd h hL
          · exact h
        by_cases hcond : j₀.id = a
        · have hrf : j₁ = refreshRow st.tasks j₀ now := by
            rw [← hf]
            simp [hcond]
          rw [hjj₁, hrf]
          exact goodJob_refreshRow st.tasks j₀ now
        · have hrf : j₁ = j₀ := by
            rw [← hf]
            simp [hcond]
          have : j₀.id = a := by
            rw [← hrf, hid₁, hja]
          exact absurd this hcond
    · by_cases hcond : j₀.id = a
      · have hrf : j₁ = refreshRow st.tasks j₀ now := by
          rw [← hf]
          simp [hcond]
        refine ⟨j₀, hj₀, ?_, Or.inl ?_⟩
        · rw [← hid₁, hrf, refreshRow_id]
        · have : j.id = a := by
            rw [← hid₁, hrf, refreshRow_id, hcond]
          rw [this]
          exact List.mem_cons_self _ _
      · have hrf : j₁ = j₀ := by
          rw [← hf]
          simp [hcond]
        refine ⟨j₀, hj₀, by rw [← hid₁, hrf], ?_⟩
        rcases hcase with h | h
        · exact Or.inl (List.mem_cons_of_mem _ h)
        · exact Or.inr (h.trans hrf)

/-- After `recover_stale_tasks`, every job row whose task list changed
satisfies the derived-state postcondition against the new task table. -/
theorem recover_goodJob (s : RepoState) (now : ℚ) (j : JobRow)
    (hj : j ∈ ((recover_stale_tasks s now).1).jobs)
    (hch : jobTasks (recover_stale_tasks s now).1 j.id ≠ jobTasks s j.id) :
    GoodJob (jobTasks (recover_stale_tasks s now).1 j.id) j := by
  have hj' : j ∈ (List.foldl (fun t jid => refreshJobState t jid now)
      { s with tasks := s.tasks.map (fun t => if staleTask now t then expireTask now t else t) }
      (((s.tasks.filter (staleTask now)).map (fun t => t.job_id)).dedup)).jobs := hj
  obtain ⟨hgood, -⟩ :=
    foldRefresh_goodJob now (((s.tasks.filter (staleTask now)).map (fun t => t.job_id)).dedup)
      { s with tasks := s.tasks.map (fun t => if staleTask now t then expireTask now t else t) }
      j hj'
  have hpf : ((fun t : TaskRow => t.job_id == j.id) ∘
      (fun t => if staleTask now t then expireTask now t else t)) =
      (fun t : TaskRow => t.job_id == j.id) := by
    funext t
    by_cases hst : staleTask now t <;> simp [hst, expireTask_job_id]
  have hmem : j.id ∈ ((s.tasks.filter (staleTask now)).map (·.job_id)).dedup := by
    by_contra hnm
    apply hch
    rw [jobTasks, recover_tasks_eq, List.filter_map, hpf]
    have hfix : ∀ t ∈ s.tasks.filter (fun t => t.job_id == j.id),
        (if staleTask now t then expireTask now t else t) = t := by
      intro t ht
      obtain ⟨htl, hjid⟩ := List.mem_filter.mp ht
      by_cases hst : staleTask now t
      · exfalso
        apply hnm
        apply List.mem_dedup.mpr
        refine List.mem_map.mpr ⟨t, List.mem_filter.mpr ⟨htl, hst⟩, ?_⟩
        simpa using hjid
      · simp [hst]
    rw [List.map_congr_left hfix, List.map_id']
    rfl
  have hg := hgood hmem
  rw [jobTasks, recover_tasks_eq]
  exact hg

/-- The submit advance never changes the task's owning job. -/
theorem submitRowUpdate_job_id (row : TaskRow) (b : Bool) (now : ℚ) :
    (submitRowUpdate row b now).job_id = row.job_id := by
  simp only [submitRowUpdate]
  split
  · rfl
  · split <;> rfl

/-- Rows of a refreshed state: a row carrying the refreshed id is the refresh
of a stored row, any other row was stored untouched. -/
theorem mem_refreshJobState (st : RepoState) (J : String) (now : ℚ) (j : JobRow)
    (hj : j ∈ (refreshJobState st J now).jobs) :
    (j.id = J → ∃ j₀, j₀ ∈ st.jobs ∧ j = refreshRow st.tasks j₀ now ∧ j₀.id = J) ∧
    (j.id ≠ J → j ∈ st.jobs) := by
  obtain ⟨j₀, hj₀, hf⟩ := List.mem_map.mp hj
  constructor
  · intro hja
    by_cases hcond : j₀.id = J
    · refine ⟨j₀, hj₀, ?_, hcond⟩
      rw [← hf]
      simp [hcond]
    · have : j = j₀ := by
        rw [← hf]
        simp [hcond]
      rw [this] at hja
      exact absurd hja hcond
  · intro hja
    by_cases hcond : j₀.id = J
    · have hrf : j = refreshRow st.tasks j₀ now := by
        rw [← hf]
        simp [hcond]
      have : j.id = J := by
        rw [hrf, refreshRow_id, hcond]
      exact absurd this hja
    · have : j = j₀ := by
        rw [← hf]
        simp [hcond]
      rw [this]
      exact hj₀

/-- A row of the promoted state whose id is not the promoted job's was stored
untouched. -/
theorem mem_promoteJob (st : RepoState) (J nid : String) (now : ℚ) (j : JobRow)
    (hj : j ∈ (promoteJob st J nid now).jobs) (hja : j.id ≠ J) : j ∈ st.jobs := by
  obtain ⟨j₀, hj₀, hf⟩ := List.mem_map.mp hj
  have hid : j.id = j₀.id := by
    rw [← hf]
    split <;> rfl
  by_cases hcond : j₀.id = J
  · exact absurd (hid.trans hcond) hja
  · have : j = j₀ := by
      rw [← hf]
      simp [hcond]
    rw [this]
    exact hj₀

/-- Transport of the derived-state postcondition along equal task lists. -/
theorem goodJob_congr {ts₁ ts₂ : List TaskRow} (h : ts₁ = ts₂) {j : JobRow}
    (hg : GoodJob ts₂ j) : GoodJob ts₁ j := h ▸ hg

/-- After a successful `create_tasks`, every job row whose task list changed
satisfies the derived-state postcondition against the new task table. -/
theorem create_goodJob (s : RepoState) (jid : String) (tt : TaskType)
    (payloads ids : List String) (mr : ℕ) (now : ℚ) (s' : RepoState)
    (created : List TaskRow)
    (hc : create_tasks s jid tt payloads mr ids now = .ok (s', created))
    (j : JobRow) (hj : j ∈ s'.jobs)
    (hch : jobTasks s' j.id ≠ jobTasks s j.id) :
    GoodJob (jobTasks s' j.id) j := by
  rw [create_tasks] at hc
  cases hfj : findJob s jid with
  | none =>
    rw [hfj] at hc
    cases hc
  | some jr =>
    rw [hfj] at hc
    injection hc with hc
    injection hc with h1 h2
    subst h1
    have hja : j.id = jid := by
      by_contra hne
      apply hch
      rw [jobTasks, jobTasks]
      show ((s.tasks ++ (payloads.zip ids).map
          (fun p => newTaskRow jid tt p.1 mr p.2 now)).filter
          (fun t => t.job_id == j.id)) = s.tasks.filter (fun t => t.job_id == j.id)
      rw [List.filter_append]
      have hnil : ((payloads.zip ids).map
          (fun p => newTaskRow jid tt p.1 mr p.2 now)).filter
          (fun t => t.job_id == j.id) = [] := by
        rw [List.filter_eq_nil]
        intro t ht
        obtain ⟨p, hp, hteq⟩ := List.mem_map.mp ht
        rw [← hteq]
        simp only [newTaskRow, beq_iff_eq]
        exact fun h => hne h.symm
      rw [hnil, List.append_nil]
    obtain ⟨j₀, hj₀, hjeq, hj₀id⟩ := (mem_refreshJobState _ _ now j hj).1 hja
    rw [hjeq]
    exact goodJob_refreshRow _ j₀ now

/-- After a successful `submit_task_result`, every job row whose task list
changed satisfies the derived-state postcondition against the new task
table. -/
theorem submit_goodJob (s : RepoState) (res : TaskResultIn) (now : ℚ)
    (s' : RepoState) (t : TaskRow) (j₂ : JobRow)
    (hc : submit_task_result s res now = .ok (s', t, j₂))
    (j : JobRow) (hj : j ∈ s'.jobs)
    (hch : jobTasks s' j.id ≠ jobTasks s j.id) :
    GoodJob (jobTasks s' j.id) j := by
  rw [submit_task_result] at hc
  split at hc
  · cases hc
  · rename_i i row hfind
    split at hc
    · cases hc
    · split at hc
      · cases hc
      · dsimp only [] at hc
        split at hc
        · cases hc
        · rename_i jrow hjrow
          injection hc with hc
          injection hc with h1 h2
          subst h1
          have hget : s.tasks[i]? = some row :=
            List.mem_enum_iff_getElem?.mp (List.mem_of_find?_eq_some hfind)
          by_cases hja : j.id = row.job_id
          · obtain ⟨j₀, hj₀, hjeq, hj₀id⟩ := (mem_refreshJobState _ _ now j hj).1 hja
            rw [hjeq]
            exact goodJob_refreshRow _ j₀ now
          · exfalso
            apply hch
            rw [jobTasks, jobTasks]
            exact filter_set_other s.tasks i (submitRowUpdate row res.success now) row hget
              (submitRowUpdate_job_id row res.success now).symm j.id
              (by rw [submitRowUpdate_job_id]; exact fun h => hja h.symm)

/-- After `pull_task_for_node`, every job row whose task list changed
satisfies the derived-state postcondition against the new task table. -/
theorem pull_goodJob (s : RepoState) (nid : String) (lease_seconds now : ℚ) (j : JobRow)
    (hj : j ∈ ((pull_task_for_node s nid lease_seconds now).1).jobs)
    (hch : jobTasks (pull_task_for_node s nid lease_seconds now).1 j.id ≠ jobTasks s j.id) :
    GoodJob (jobTasks (pull_task_for_node s nid lease_seconds now).1 j.id) j := by
  cases hnd : findNode (recover_stale_tasks s now).1 nid with
  | none =>
    simp only [pull_task_for_node, hnd] at hj hch ⊢
    exact recover_goodJob s now j hj hch
  | some node =>
    cases hpk : pickFirstMax (fun p => taskWeight node now p.2)
        (eligibleQueued (recover_stale_tasks s now).1 node) with
    | none =>
      simp only [pull_task_for_node, hnd, hpk] at hj hch ⊢
      exact recover_goodJob s now j hj hch
    | some ir =>
      obtain ⟨i, row⟩ := ir
      simp only [pull_task_for_node, hnd, hpk] at hj hch ⊢
      obtain ⟨pre, post, hsplit, -, -⟩ :=
        pickFirstMax_spec (fun p => taskWeight node now p.2)
          (eligibleQueued (recover_stale_tasks s now).1 node) (i, row) hpk
      have hmem : (i, row) ∈ eligibleQueued (recover_stale_tasks s now).1 node := by
        rw [hsplit]
        exact List.mem_append_right _ (List.mem_cons_self _ _)
      obtain ⟨hget, -, -⟩ := eligibleQueued_facts _ _ _ _ hmem
      by_cases hja : j.id = row.job_id
      · obtain ⟨j₀, hj₀, hjeq, hj₀id⟩ := (mem_refreshJobState _ _ now j hj).1 hja
        rw [hjeq]
        exact goodJob_refreshRow _ j₀ now
      · have hjprom := (mem_refreshJobState _ _ now j hj).2 hja
        have hjrec : j ∈ ((recover_stale_tasks s now).1).jobs :=
          mem_promoteJob _ _ _ _ j hjprom hja
        have hset := filter_set_other (recover_stale_tasks s now).1.tasks i
          { row with
            status := TaskStatus.running, assigned_node_id := some nid,
            lease_expires_at := some (now + lease_seconds),
            started_at := some (row.started_at.getD now), updated_at := now }
          row hget rfl j.id (fun h => hja h.symm)
        refine goodJob_congr ?_ (recover_goodJob s now j hjrec ?_)
        · rw [jobTasks, jobTasks]
          exact hset
        · intro h0
          apply hch
          rw [jobTasks] at h0 ⊢
          rw [jobTasks]
          exact hset.trans h0

/-- Master lemma for refresh-last operations: after any of the four
task-mutating operations, every job row whose task list changed satisfies the
derived-state postcondition (status/error derivation and attempts as the sum
of its tasks' retries) against the post-state task table. -/
theorem applyTaskOp_goodJob (op : TaskMutOp) (s : RepoState) (now : ℚ) (j : JobRow)
    (hj : j ∈ (applyTaskOp op s now).jobs)
    (hch : jobTasks (applyTaskOp op s now) j.id ≠ jobTasks s j.id) :
    GoodJob (jobTasks (applyTaskOp op s now) j.id) j := by
  cases op with
  | recoverOp => exact recover_goodJob s now j hj hch
  | createTasksOp jid tt payloads mr ids =>
    simp only [applyTaskOp] at hj hch ⊢
    cases hc : create_tasks s jid tt payloads mr ids now with
    | error e =>
      simp only [hc] at hj hch ⊢
      exact absurd rfl hch
    | ok p =>
      obtain ⟨s₂, created⟩ := p
      simp only [hc] at hj hch ⊢
      exact create_goodJob s jid tt payloads ids mr now s₂ created hc j hj hch
  | submitOp res =>
    simp only [applyTaskOp] at hj hch ⊢
    cases hc : submit_task_result s res now with
    | error e =>
      simp only [hc] at hj hch ⊢
      exact absurd rfl hch
    | ok p =>
      obtain ⟨s₂, t, j₂⟩ := p
      simp only [hc] at hj hch ⊢
      exact submit_goodJob s res now s₂ t j₂ hc j hj hch
  | pullOp nid lease_seconds => exact pull_goodJob s nid lease_seconds now j hj hch

/-- C1: after any task-mutating operation (create_tasks, pull_task_for_node,
submit_task_result, recover_stale_tasks), every job whose task list changed
and now owns at least one task stores exactly the derived status — COMPLETED
when all tasks completed, FAILED when some task failed and none is queued or
running, RUNNING when any task has started (is past QUEUED), else QUEUED —
and, when the derived status is FAILED, the error `"{n} tasks failed"` with
`n` the number of failed tasks. -/
theorem job_status_derivation (s : RepoState) (op : TaskMutOp) (now : ℚ) (j : JobRow)
    (hj : j ∈ (applyTaskOp op s now).jobs)
    (hch : jobTasks (applyTaskOp op s now) j.id ≠ jobTasks s j.id)
    (htotal : 0 < (jobTasks (applyTaskOp op s now) j.id).length) :
    j.status = deriveStatusClaim (jobTasks (applyTaskOp op s now) j.id) ∧
      (deriveStatusClaim (jobTasks (applyTaskOp op s now) j.id) = .failed →
        j.error = some (toString
          (countStatus (jobTasks (applyTaskOp op s now) j.id) .failed) ++ " tasks failed")) :=
  (applyTaskOp_goodJob op s now j hj hch).1 htotal

/-- C9: after any operation that refreshes a job from its tasks, the job's
`attempts` equals the sum of retries over its tasks — regardless of any value
previously written by a manual QUEUED to RUNNING transition, which the
refresh overwrites. -/
theorem job_attempts_overwrite (s : RepoState) (op : TaskMutOp) (now : ℚ) (j : JobRow)
    (hj : j ∈ (applyTaskOp op s now).jobs)
    (hch : jobTasks (applyTaskOp op s now) j.id ≠ jobTasks s j.id) :
    j.attempts = totalRetries (jobTasks (applyTaskOp op s now) j.id) :=
  (applyTaskOp_goodJob op s now j hj hch).2

/-- C1 witness: fanning one task out to the manually started fixture job
leaves the stored status equal to the derived one (QUEUED again). -/
theorem job_status_derivation_witness :
    ((applyTaskOp (.createTasksOp "j1" .embeddings ["p"] 2 ["tN"]) stTrans 5).jobs.headD
        fixtureJob) ∈
      (applyTaskOp (.createTasksOp "j1" .embeddings ["p"] 2 ["tN"]) stTrans 5).jobs ∧
    jobTasks (applyTaskOp (.createTasksOp "j1" .embeddings ["p"] 2 ["tN"]) stTrans 5)
        ((applyTaskOp (.createTasksOp "j1" .embeddings ["p"] 2 ["tN"]) stTrans 5).jobs.headD
          fixtureJob).id ≠
      jobTasks stTrans
        ((applyTaskOp (.createTasksOp "j1" .embeddings ["p"] 2 ["tN"]) stTrans 5).jobs.headD
          fixtureJob).id ∧
    0 < (jobTasks (applyTaskOp (.createTasksOp "j1" .embeddings ["p"] 2 ["tN"]) stTrans 5)
        ((applyTaskOp (.createTasksOp "j1" .embeddings ["p"] 2 ["tN"]) stTrans 5).jobs.headD
          fixtureJob).id).length ∧
    (((applyTaskOp (.createTasksOp "j1" .embeddings ["p"] 2 ["tN"]) stTrans 5).jobs.headD
          fixtureJob).status =
        deriveStatusClaim
          (jobTasks (applyTaskOp (.createTasksOp "j1" .embeddings ["p"] 2 ["tN"]) stTrans 5)
            ((applyTaskOp (.createTasksOp "j1" .embeddings ["p"] 2 ["tN"]) stTrans 5).jobs.headD
              fixtureJob).id) ∧
      (deriveStatusClaim
          (jobTasks (applyTaskOp (.createTasksOp "j1" .embeddings ["p"] 2 ["tN"]) stTrans 5)
            ((applyTaskOp (.createTasksOp "j1" .embeddings ["p"] 2 ["tN"]) stTrans 5).jobs.headD
              fixtureJob).id) = .failed →
        ((applyTaskOp (.createTasksOp "j1" .embeddings ["p"] 2 ["tN"]) stTrans 5).jobs.headD
            fixtureJob).error =
          some (toString (countStatus
            (jobTasks (applyTaskOp (.createTasksOp "j1" .embeddings ["p"] 2 ["tN"]) stTrans 5)
              ((applyTaskOp (.createTasksOp "j1" .embeddings ["p"] 2 ["tN"]) stTrans 5).jobs.headD
                fixtureJob).id) .failed) ++ " tasks failed"))) :=
  ⟨by decide, by decide, by decide,
    job_status_derivation stTrans (.createTasksOp "j1" .embeddings ["p"] 2 ["tN"]) 5
      ((applyTaskOp (.createTasksOp "j1" .embeddings ["p"] 2 ["tN"]) stTrans 5).jobs.headD
        fixtureJob) (by decide) (by decide) (by decide)⟩

/-- C9 witness: submitting a failed result for the queued fixture task sets
the job's attempts to the task's single retry, overwriting the stored 0. -/
theorem job_attempts_overwrite_witness :
    ((applyTaskOp (.submitOp resC2) stSubmit 5).jobs.headD fixtureJob) ∈
      (applyTaskOp (.submitOp resC2) stSubmit 5).jobs ∧
    jobTasks (applyTaskOp (.submitOp resC2) stSubmit 5)
        ((applyTaskOp (.submitOp resC2) stSubmit 5).jobs.headD fixtureJob).id ≠
      jobTasks stSubmit
        ((applyTaskOp (.submitOp resC2) stSubmit 5).jobs.headD fixtureJob).id ∧
    ((applyTaskOp (.submitOp resC2) stSubmit 5).jobs.headD fixtureJob).attempts =
      totalRetries (jobTasks (applyTaskOp (.submitOp resC2) stSubmit 5)
        ((applyTaskOp (.submitOp resC2) stSubmit 5).jobs.headD fixtureJob).id) :=
  ⟨by decide, by decide,
    job_attempts_overwrite stSubmit (.submitOp resC2) 5
      ((applyTaskOp (.submitOp resC2) stSubmit 5).jobs.headD fixtureJob)
      (by decide) (by decide)⟩

end EdgeMesh
